import Mathlib

/-!
# Verification of the 2048 game engine

A shallow embedding of the game-engine class (grid slide/merge/rotate,
bounded history with undo, win/lose evaluation, serialization restore)
together with proofs of the specification's claims about it.

Conventions of the embedding:
* a grid is a `List (List Nat)`; `0` is an empty cell;
* out-of-range array reads, which in the source yield `undefined`, are
  modelled with `Option` (`cellOf` returns `none` where the source reads
  `undefined`), so strict-equality comparisons against `undefined`
  translate to comparisons of `Option` values;
* the ambient random source used when spawning a tile is made explicit:
  a caller-supplied natural `pick` selects the empty cell (the source
  picks a uniformly random index into the list of empty cells; `pick %
  empties.length` ranges over exactly the same indices) and a Boolean
  `two` selects the spawned value (`true` ↦ 2, the 90% branch, `false`
  ↦ 4, the 10% branch);
* the direction argument is a string, as in the source; the rotation
  lookup table is partial (`rotationsTable`), and a missing entry makes
  both rotation loops run zero times, exactly as iterating a JS `for`
  loop bounded by `undefined` and `(4 - undefined) % 4 = NaN` does.
-/

namespace Game2048

/-- A grid row: tile values, `0` meaning empty. -/
abbrev Row := List Nat

/-- The game grid, a list of rows. -/
abbrev Grid := List Row

/-- The game-state enumeration: `'playing' | 'won' | 'lost'`. -/
inductive GState where
  | playing
  | won
  | lost
deriving DecidableEq, Repr

/-- A history snapshot, captured by `pushHistory` before a move:
`{ grid, score, gameState, wonBefore }`. -/
structure Snapshot where
  grid : Grid
  score : Nat
  gameState : GState
  wonBefore : Bool
deriving DecidableEq, Repr

/-- The engine state: the fields set by the `Game` constructor. -/
structure Game where
  size : Nat
  grid : Grid
  score : Nat
  bestScore : Nat
  history : List Snapshot
  maxHistory : Nat
  gameState : GState
  wonBefore : Bool
  moveId : Nat
deriving DecidableEq, Repr

/-- The constructor `new Game(size)`: empty grid, zero scores, empty
history with capacity 20, state playing. -/
def Game.mk0 (size : Nat) : Game :=
  { size := size, grid := [], score := 0, bestScore := 0, history := [],
    maxHistory := 20, gameState := GState.playing, wonBefore := false,
    moveId := 0 }

/-- Reading `grid[r][c]`: `none` models the source's `undefined`. -/
def cellOf (grid : Grid) (r c : Nat) : Option Nat :=
  (grid.get? r).bind (fun row => row.get? c)

/-- Writing `grid[r][c] = v` (no-op out of range; the engine only writes
in range). -/
def setCell (grid : Grid) (r c v : Nat) : Grid :=
  grid.set r ((grid.getD r []).set c v)

/-- The snapshot `pushHistory` records. -/
def snap (s : Game) : Snapshot :=
  { grid := s.grid, score := s.score, gameState := s.gameState,
    wonBefore := s.wonBefore }

/-- Source `pushHistory()`: append the snapshot, then drop the oldest entry if
the capacity `maxHistory` is exceeded. -/
def pushHistory (s : Game) : Game :=
  let h := s.history ++ [snap s]
  { s with history := if s.maxHistory < h.length then h.drop 1 else h }

/-- Source `undo()`: pop the most recent snapshot and restore grid, score,
gameState and wonBefore from it; `false` and no change on empty history. -/
def undo (s : Game) : Game × Bool :=
  match s.history.getLast? with
  | none => (s, false)
  | some prev =>
    ({ s with grid := prev.grid, score := prev.score,
              gameState := prev.gameState, wonBefore := prev.wonBefore,
              history := s.history.dropLast }, true)

/-- Source `continueGame()`: from `won`, set `wonBefore` and return to playing. -/
def continueGame (s : Game) : Game :=
  if s.gameState = GState.won then
    { s with wonBefore := true, gameState := GState.playing }
  else s

/-- The scan for empty cells in `addRandomTile`: row-major positions
`(r, c)` with `r, c < size` whose cell is `0`. -/
def emptyCells (size : Nat) (grid : Grid) : List (Nat × Nat) :=
  (List.range size).flatMap (fun r =>
    (List.range size).filterMap (fun c =>
      if cellOf grid r c = some 0 then some (r, c) else none))

/-- The spawned-tile report `{ r, c, value }`. -/
structure NewTile where
  r : Nat
  c : Nat
  value : Nat
deriving DecidableEq, Repr

/-- Source `addRandomTile()`: `none` on a full board, otherwise write 2 (the 90%
branch, `two = true`) or 4 into the selected empty cell.  The random index
`Math.floor(Math.random() * empty.length)` is modelled by
`pick % empty.length`, which ranges over the same index set. -/
def addRandomTile (pick : Nat) (two : Bool) (s : Game) : Game × Option NewTile :=
  let empty := emptyCells s.size s.grid
  if empty.length = 0 then (s, none)
  else
    let cell := empty.getD (pick % empty.length) (0, 0)
    let value := if two then 2 else 4
    ({ s with grid := setCell s.grid cell.1 cell.2 value },
              some { r := cell.1, c := cell.2, value := value })

/-- The merge scan of `slideRow` over the zero-filtered row, with `idx`
the number of cells already emitted: returns
`(result, merged, scoreGain, mergePositions)`.  Equal adjacent values
merge into their double, and the scan skips the consumed neighbour
(`i++` in the source), so a merged cell never merges again. -/
def mergeCore : List Nat → Nat → List Nat × List Nat × Nat × List Nat
  | [], _ => ([], [], 0, [])
  | [a], _ => ([a], [], 0, [])
  | a :: b :: rest, idx =>
    if a = b then
      let t := mergeCore rest (idx + 1)
      (a * 2 :: t.1, a * 2 :: t.2.1, a * 2 + t.2.2.1, idx :: t.2.2.2)
    else
      let t := mergeCore (b :: rest) (idx + 1)
      (a :: t.1, t.2.1, t.2.2.1, t.2.2.2)

/-- The result record of `slideRow`. -/
structure SlideOut where
  row : Row
  merged : List Nat
  scoreGain : Nat
  mergePositions : List Nat
deriving DecidableEq, Repr

/-- Source `slideRow(row)`: drop zeros, merge-scan, pad with zeros back to the
input length. -/
def slideRow (row : Row) : SlideOut :=
  let filtered := row.filter (fun v => v != 0)
  let t := mergeCore filtered 0
  { row := t.1 ++ List.replicate (row.length - t.1.length) 0,
    merged := t.2.1, scoreGain := t.2.2.1, mergePositions := t.2.2.2 }

/-- Source `rotateGrid(grid)`: one clockwise quarter turn,
`rotated[c][n-1-r] = grid[r][c]`, i.e. entry `(i, j)` of the result is
entry `(n-1-j, i)` of the input (the result array is pre-filled with 0). -/
def rotateGrid (grid : Grid) : Grid :=
  let n := grid.length
  (List.range n).map (fun i =>
    (List.range n).map (fun j => ((grid.getD (n - 1 - j) []).getD i 0)))

/-- The `for`-loop applying `rotateGrid` a number of times. -/
def rotateIter : Nat → Grid → Grid
  | 0, g => g
  | n + 1, g => rotateIter n (rotateGrid g)

/-- The direction lookup table `{ left: 0, up: 3, right: 2, down: 1 }`;
`none` models `undefined` for any other string. -/
def rotationsTable (direction : String) : Option Nat :=
  if direction = "left" then some 0
  else if direction = "up" then some 3
  else if direction = "right" then some 2
  else if direction = "down" then some 1
  else none

/-- The number of forward rotations the move loop performs: `rot` when
the table has an entry, and zero when `rot` is `undefined` (a JS `for`
loop bounded by `undefined` runs zero times). -/
def rotCount (direction : String) : Nat :=
  (rotationsTable direction).getD 0

/-- The number of inverse rotations: `(4 - rot) % 4` when the table has
an entry; with `rot` `undefined` the bound is `NaN` and the loop runs
zero times. -/
def unrotCount (direction : String) : Nat :=
  match rotationsTable direction with
  | some r => (4 - r) % 4
  | none => 0

/-- A tile movement recorded during the row pass, in the rotated frame:
`{ fromR, fromC, toR, toC, value, merged, mergedValue }` (`mergedValue`
is only set on merged movements). -/
structure RawMove where
  fromR : Nat
  fromC : Nat
  toR : Nat
  toC : Nat
  value : Nat
  merged : Bool
  mergedValue : Option Nat
deriving DecidableEq, Repr

/-- A movement of the returned result, after un-rotation:
`{ from, to, value, merged, mergedValue }`. -/
structure Movement where
  src : Nat × Nat
  dst : Nat × Nat
  value : Nat
  merged : Bool
  mergedValue : Option Nat
deriving DecidableEq, Repr

/-- The `srcPositions` scan: `(col, value)` for each non-zero source cell
of the row, for columns `c < size`. -/
def srcPositionsOf (size : Nat) (origRow : Row) : List (Nat × Nat) :=
  (List.range size).filterMap (fun c =>
    match origRow.get? c with
    | some v => if v ≠ 0 then some (c, v) else none
    | none => none)

/-- The `while` loop matching source positions against destination cells
of the slid row: a destination holding a merged value consumes two source
tiles, any other non-empty destination consumes one; empty destinations
are skipped.  `destIdx` increases on every iteration, so running the
loop with `fuel = size - destIdx` steps of budget (`size` at the start)
reproduces the source loop exactly. -/
def movementsLoop (r size : Nat) (row : Row) (mps : List Nat)
    (srcs : List (Nat × Nat)) : Nat → Nat → Nat → List RawMove
  | _, _, 0 => []
  | srcIdx, destIdx, fuel + 1 =>
    if srcIdx < srcs.length ∧ destIdx < size then
      if row.get? destIdx = some 0 then
        movementsLoop r size row mps srcs srcIdx (destIdx + 1) fuel
      else if mps.contains destIdx ∧ srcIdx + 1 < srcs.length then
        let s0 := srcs.getD srcIdx (0, 0)
        let s1 := srcs.getD (srcIdx + 1) (0, 0)
        let mv := row.getD destIdx 0
        { fromR := r, fromC := s0.1, toR := r, toC := destIdx, value := s0.2,
          merged := true, mergedValue := some mv } ::
        { fromR := r, fromC := s1.1, toR := r, toC := destIdx, value := s1.2,
          merged := true, mergedValue := some mv } ::
        movementsLoop r size row mps srcs (srcIdx + 2) (destIdx + 1) fuel
      else
        let s0 := srcs.getD srcIdx (0, 0)
        { fromR := r, fromC := s0.1, toR := r, toC := destIdx, value := s0.2,
          merged := false, mergedValue := none } ::
        movementsLoop r size row mps srcs (srcIdx + 1) (destIdx + 1) fuel
    else []

/-- The per-row work of the move loop body. -/
structure RowOut where
  row : Row
  changed : Bool
  scoreGain : Nat
  merged : List Nat
  movements : List RawMove
deriving DecidableEq, Repr

/-- One iteration of the move loop: slide row `r`, record whether it
changed (`row.some((v, i) => v !== workGrid[r][i])`, which for the
equal-length slid row is plain list inequality), and build its movement
trace. -/
def processRow (size r : Nat) (origRow : Row) : RowOut :=
  let sr := slideRow origRow
  { row := sr.row,
    changed := decide (sr.row ≠ origRow),
    scoreGain := sr.scoreGain,
    merged := sr.merged,
    movements := movementsLoop r size sr.row sr.mergePositions
      (srcPositionsOf size origRow) 0 0 size }

/-- The aggregate of the move loop over all rows. -/
structure RowsOut where
  grid : Grid
  moved : Bool
  scoreGain : Nat
  allMerged : List Nat
  movements : List RawMove
deriving DecidableEq, Repr

/-- The move loop `for (r = 0; r < size; r++)` over the rotated grid. -/
def processRows (size : Nat) (workGrid : Grid) : RowsOut :=
  let outs := (List.range size).map (fun r => processRow size r (workGrid.getD r []))
  { grid := outs.map RowOut.row,
    moved := outs.any RowOut.changed,
    scoreGain := (outs.map RowOut.scoreGain).sum,
    allMerged := (outs.map RowOut.merged).flatten,
    movements := (outs.map RowOut.movements).flatten }

/-- Source `unrotateCoord(r, c, times)`: iterate `(r, c) ↦ (c, size - 1 - r)`. -/
def unrotateCoord (size : Nat) : Nat → Nat → Nat → Nat × Nat
  | r, c, 0 => (r, c)
  | r, c, t + 1 => unrotateCoord size c (size - 1 - r) t

/-- The structured result of a committed move. -/
structure MoveResult where
  moved : Bool
  movements : List Movement
  mergedTiles : List Nat
  newTile : Option NewTile
  scoreGain : Nat
  gameState : GState
deriving DecidableEq, Repr

/-- Source `canMove()`: an empty cell exists, or two horizontally- or
vertically-adjacent cells hold strictly-equal values. -/
def canMove (s : Game) : Bool :=
  ((List.range s.size).any fun r => (List.range s.size).any fun c =>
    cellOf s.grid r c = some 0) ||
  ((List.range s.size).any fun r => (List.range s.size).any fun c =>
    (decide (c + 1 < s.size) && decide (cellOf s.grid r (c + 1) = cellOf s.grid r c)) ||
    (decide (r + 1 < s.size) && decide (cellOf s.grid (r + 1) c = cellOf s.grid r c)))

/-- Commit, stage 1: un-rotate the grid, install it, add the score gain,
raise `bestScore` if exceeded, and increment `moveId`. -/
def commitBase (direction : String) (s1 : Game) (pr : RowsOut) : Game :=
  let s2 := { s1 with grid := rotateIter (unrotCount direction) pr.grid,
                      score := s1.score + pr.scoreGain,
                      moveId := s1.moveId + 1 }
  if s2.bestScore < s2.score then { s2 with bestScore := s2.score } else s2

/-- Commit, stage 2: spawn one random tile into the committed grid. -/
def commitSpawned (direction : String) (pick : Nat) (two : Bool)
    (s1 : Game) (pr : RowsOut) : Game × Option NewTile :=
  addRandomTile pick two (commitBase direction s1 pr)

/-- Commit, stage 3: the win check — some merge equal to 2048, or some
cell of the post-spawn grid equal to 2048, suppressed by `wonBefore`. -/
def commitWinChecked (direction : String) (pick : Nat) (two : Bool)
    (s1 : Game) (pr : RowsOut) : Game :=
  if (pr.allMerged.contains 2048 ||
        (commitSpawned direction pick two s1 pr).1.grid.any
          (fun row => row.contains 2048)) = true
     ∧ (commitSpawned direction pick two s1 pr).1.wonBefore = false
  then { (commitSpawned direction pick two s1 pr).1 with gameState := GState.won }
  else (commitSpawned direction pick two s1 pr).1

/-- Commit, stage 4: the lose check, evaluated unconditionally after the
win check. -/
def commitFinal (direction : String) (pick : Nat) (two : Bool)
    (s1 : Game) (pr : RowsOut) : Game :=
  if canMove (commitWinChecked direction pick two s1 pr) = false
  then { commitWinChecked direction pick two s1 pr with gameState := GState.lost }
  else commitWinChecked direction pick two s1 pr

/-- The commit path of `move` (reached once some row changed): un-rotate
grid and movement coordinates, install the grid, add the score gain,
raise `bestScore`, bump `moveId`, spawn one tile, then evaluate the win
check and, unconditionally after it, the lose check. -/
def moveCommit (direction : String) (pick : Nat) (two : Bool)
    (s1 : Game) (pr : RowsOut) : Game × Option MoveResult :=
  let unrotN := unrotCount direction
  let s6 := commitFinal direction pick two s1 pr
  (s6, some { moved := true,
              movements := pr.movements.map (fun m =>
                { src := unrotateCoord s1.size m.fromR m.fromC unrotN,
                  dst := unrotateCoord s1.size m.toR m.toC unrotN,
                  value := m.value, merged := m.merged,
                  mergedValue := m.mergedValue }),
              mergedTiles := pr.allMerged,
              newTile := (commitSpawned direction pick two s1 pr).2,
              scoreGain := pr.scoreGain,
              gameState := s6.gameState })

/-- Source `move(direction)`: reject when lost, or won without `continueGame`;
otherwise push a history snapshot, rotate, slide every row, and either
revert the push (no row changed) or commit. -/
def move (direction : String) (pick : Nat) (two : Bool) (s : Game) :
    Game × Option MoveResult :=
  if s.gameState = GState.lost then (s, none)
  else if s.gameState = GState.won ∧ s.wonBefore = false then (s, none)
  else
    let s1 := pushHistory s
    let workGrid := rotateIter (rotCount direction) s1.grid
    let pr := processRows s1.size workGrid
    if pr.moved = false then
      ({ s1 with history := s1.history.dropLast }, none)
    else moveCommit direction pick two s1 pr

/-- Source `init()`: zero grid, reset all fields, then spawn two tiles. -/
def init (p1 : Nat) (t1 : Bool) (p2 : Nat) (t2 : Bool) (s : Game) : Game :=
  let s0 := { s with grid := List.replicate s.size (List.replicate s.size 0),
                     score := 0, history := [], gameState := GState.playing,
                     wonBefore := false, moveId := 0 }
  (addRandomTile p2 t2 (addRandomTile p1 t1 s0).1).1

/-- The shape of data handed to `deserialize`: every field optional
(`none` models an absent/undefined property of the stored object). -/
structure DeserData where
  grid : Option Grid
  score : Option Nat
  bestScore : Option Nat
  history : Option (List Snapshot)
  gameState : Option GState
  wonBefore : Option Bool
  moveId : Option Nat
deriving DecidableEq, Repr

/-- Source `deserialize(data)`: `false` leaving the state untouched when `data`
is absent or has no grid (`!data || !data.grid`); otherwise install the
grid and default each absent field (`|| 0`, `|| []`, `|| 'playing'`,
`|| false`). -/
def deserialize (data : Option DeserData) (s : Game) : Game × Bool :=
  match data with
  | none => (s, false)
  | some d =>
    match d.grid with
    | none => (s, false)
    | some g =>
      ({ s with grid := g, score := d.score.getD 0,
                bestScore := d.bestScore.getD 0,
                history := d.history.getD [],
                gameState := d.gameState.getD GState.playing,
                wonBefore := d.wonBefore.getD false,
                moveId := d.moveId.getD 0 }, true)

/-- The total value on a grid. -/
def gridSum (g : Grid) : Nat := (g.map List.sum).sum

/-- Well-formedness of a grid: `n` rows, each of length `n` (the shape
every grid built by `init` has and every committed move preserves). -/
def SquareGrid (n : Nat) (g : Grid) : Prop :=
  g.length = n ∧ ∀ row ∈ g, row.length = n

/-- The last `k` elements of a list (all of it when `k` exceeds the
length). -/
def lastN (k : Nat) (l : List Snapshot) : List Snapshot :=
  l.drop (l.length - k)

/-- Fold a sequence of `move` calls (direction, spawn-cell pick, spawn
value) over a state. -/
def movesSeq (inputs : List (String × Nat × Bool)) (s : Game) : Game :=
  inputs.foldl (fun st i => (move i.1 i.2.1 i.2.2 st).1) s

/-- Whether every move of the sequence commits (returns a result). -/
def allCommit : List (String × Nat × Bool) → Game → Bool
  | [], _ => true
  | i :: is, s =>
    (move i.1 i.2.1 i.2.2 s).2.isSome && allCommit is (move i.1 i.2.1 i.2.2 s).1

/-- The pre-move snapshots of a move sequence, oldest first. -/
def preSnaps : List (String × Nat × Bool) → Game → List Snapshot
  | [], _ => []
  | i :: is, s => snap s :: preSnaps is (move i.1 i.2.1 i.2.2 s).1

/-! ### Concrete states used to exercise the theorems -/

/-- A board whose every left slide is a no-op, with a full history. -/
def exNoopFull : Game :=
  { Game.mk0 4 with
    grid := [[2,4,2,4],[4,2,4,2],[2,4,2,4],[4,2,4,2]],
    history := List.replicate 20
      { grid := [], score := 0, gameState := GState.playing, wonBefore := false } }

/-- A board one merge away from 2048. -/
def exWin : Game :=
  { Game.mk0 4 with
    grid := [[1024,1024,0,0],[0,0,0,0],[0,0,0,0],[0,0,0,0]] }

/-- The result that `move "left" 0 true` returns from `exWin`. -/
def exWinRes : MoveResult :=
  { moved := true,
    movements := [
      { src := (0, 0), dst := (0, 0), value := 1024, merged := true,
        mergedValue := some 2048 },
      { src := (0, 1), dst := (0, 0), value := 1024, merged := true,
        mergedValue := some 2048 }],
    mergedTiles := [2048],
    newTile := some { r := 0, c := 1, value := 2 },
    scoreGain := 2048,
    gameState := GState.won }

/-- A board whose left slide merges two 4096 tiles (a merge above the
2048 threshold with no 2048 cell anywhere). -/
def exBigMerge : Game :=
  { Game.mk0 4 with
    grid := [[4096,4096,0,0],[0,0,0,0],[0,0,0,0],[0,0,0,0]] }

/-- A board whose left slide merges to 2048 while the spawn fills the
last empty cell of a board with no adjacent equal pair: the winning move
dies. -/
def exDead : Game :=
  { Game.mk0 4 with
    grid := [[1024,1024,4,2],[2,8,4,2],[4,2,8,4],[2,4,2,8]] }

/-- A lost game. -/
def exLost : Game := { Game.mk0 4 with gameState := GState.lost }

/-- A 3×3 game about to receive a long move sequence. -/
def exSeqStart : Game :=
  { Game.mk0 3 with grid := [[2,0,0],[0,0,0],[0,0,0]] }

/-- A 25-step input sequence (direction, spawn pick, spawn value) whose
every move commits when played from `exSeqStart`. -/
def exSeq : List (String × Nat × Bool) :=
  [("right",0,true),("left",0,true),("right",0,true),("down",0,true),("up",0,true),
   ("left",0,true),("left",0,true),("right",0,true),("left",0,true),("right",0,true),
   ("up",0,true),("left",0,true),("right",0,true),("left",0,true),("up",0,true),
   ("left",0,true),("right",0,true),("down",0,true),("right",0,true),("left",0,true),
   ("up",0,true),("up",0,true),("up",0,true),("down",0,true),("left",0,true)]

/-- A one-snapshot history entry for exercising `undo`. -/
def exUndoSnap : Snapshot :=
  { grid := [[2]], score := 5, gameState := GState.playing, wonBefore := false }

/-- A game holding exactly one history snapshot. -/
def exUndo : Game := { Game.mk0 4 with history := [exUndoSnap] }

/-- Serialized data carrying only a grid. -/
def exDeserGridOnly : DeserData :=
  { grid := some [[2,0],[0,2]], score := none, bestScore := none,
    history := none, gameState := none, wonBefore := none, moveId := none }

/-- Serialized data with no grid. -/
def exDeserNoGrid : DeserData :=
  { grid := none, score := some 7, bestScore := none, history := none,
    gameState := some GState.won, wonBefore := some true, moveId := some 3 }

/-- Serialized data carrying a 21-entry history. -/
def exDeserLongHistory : DeserData :=
  { grid := some [[2,0],[0,2]], score := none, bestScore := none,
    history := some (List.replicate 21
      { grid := [], score := 0, gameState := GState.playing, wonBefore := false }),
    gameState := none, wonBefore := none, moveId := none }

/-! ## Basic facts about the state-manipulating helpers -/

@[simp] theorem pushHistory_size (s : Game) : (pushHistory s).size = s.size := rfl

@[simp] theorem pushHistory_grid (s : Game) : (pushHistory s).grid = s.grid := rfl

@[simp] theorem pushHistory_score (s : Game) : (pushHistory s).score = s.score := rfl

@[simp] theorem pushHistory_bestScore (s : Game) :
    (pushHistory s).bestScore = s.bestScore := rfl

@[simp] theorem pushHistory_gameState (s : Game) :
    (pushHistory s).gameState = s.gameState := rfl

@[simp] theorem pushHistory_wonBefore (s : Game) :
    (pushHistory s).wonBefore = s.wonBefore := rfl

@[simp] theorem pushHistory_maxHistory (s : Game) :
    (pushHistory s).maxHistory = s.maxHistory := rfl

@[simp] theorem pushHistory_moveId (s : Game) : (pushHistory s).moveId = s.moveId := rfl

theorem pushHistory_history (s : Game) :
    (pushHistory s).history =
      if s.maxHistory < s.history.length + 1
      then (s.history ++ [snap s]).drop 1
      else s.history ++ [snap s] := by
  simp [pushHistory]

@[simp] theorem addRandomTile_fst_size (p : Nat) (t : Bool) (s : Game) :
    (addRandomTile p t s).1.size = s.size := by
  unfold addRandomTile
  by_cases h : (emptyCells s.size s.grid).length = 0 <;> simp [h]

@[simp] theorem addRandomTile_fst_score (p : Nat) (t : Bool) (s : Game) :
    (addRandomTile p t s).1.score = s.score := by
  unfold addRandomTile
  by_cases h : (emptyCells s.size s.grid).length = 0 <;> simp [h]

@[simp] theorem addRandomTile_fst_bestScore (p : Nat) (t : Bool) (s : Game) :
    (addRandomTile p t s).1.bestScore = s.bestScore := by
  unfold addRandomTile
  by_cases h : (emptyCells s.size s.grid).length = 0 <;> simp [h]

@[simp] theorem addRandomTile_fst_history (p : Nat) (t : Bool) (s : Game) :
    (addRandomTile p t s).1.history = s.history := by
  unfold addRandomTile
  by_cases h : (emptyCells s.size s.grid).length = 0 <;> simp [h]

@[simp] theorem addRandomTile_fst_maxHistory (p : Nat) (t : Bool) (s : Game) :
    (addRandomTile p t s).1.maxHistory = s.maxHistory := by
  unfold addRandomTile
  by_cases h : (emptyCells s.size s.grid).length = 0 <;> simp [h]

@[simp] theorem addRandomTile_fst_gameState (p : Nat) (t : Bool) (s : Game) :
    (addRandomTile p t s).1.gameState = s.gameState := by
  unfold addRandomTile
  by_cases h : (emptyCells s.size s.grid).length = 0 <;> simp [h]

@[simp] theorem addRandomTile_fst_wonBefore (p : Nat) (t : Bool) (s : Game) :
    (addRandomTile p t s).1.wonBefore = s.wonBefore := by
  unfold addRandomTile
  by_cases h : (emptyCells s.size s.grid).length = 0 <;> simp [h]

@[simp] theorem addRandomTile_fst_moveId (p : Nat) (t : Bool) (s : Game) :
    (addRandomTile p t s).1.moveId = s.moveId := by
  unfold addRandomTile
  by_cases h : (emptyCells s.size s.grid).length = 0 <;> simp [h]

theorem canMove_gameState_irrel (s : Game) (x : GState) :
    canMove { s with gameState := x } = canMove s := rfl

/-- Unfolding principle for `move`, stated over the original state. -/
theorem move_def (d : String) (p : Nat) (t : Bool) (s : Game) :
    move d p t s =
      if s.gameState = GState.lost then (s, none)
      else if s.gameState = GState.won ∧ s.wonBefore = false then (s, none)
      else if (processRows s.size (rotateIter (rotCount d) s.grid)).moved = false then
        ({ s with history := (pushHistory s).history.dropLast }, none)
      else moveCommit d p t (pushHistory s)
        (processRows s.size (rotateIter (rotCount d) s.grid)) := by
  unfold move
  rfl

/-! ## The slide-and-merge pass -/

/-- The score gained by the merge scan is exactly the sum of the merged
values it reports. -/
theorem mergeCore_scoreGain_eq_sum (l : List Nat) (i : Nat) :
    (mergeCore l i).2.2.1 = (mergeCore l i).2.1.sum := by
  induction l, i using mergeCore.induct with
  | case1 i => simp [mergeCore]
  | case2 a i => simp [mergeCore]
  | case3 a rest i ih => simp [mergeCore, ih]
  | case4 a b rest i h ih => simp [mergeCore, h, ih]

/-- The merge scan preserves the sum of the row. -/
theorem mergeCore_sum (l : List Nat) (i : Nat) :
    (mergeCore l i).1.sum = l.sum := by
  induction l, i using mergeCore.induct with
  | case1 i => simp [mergeCore]
  | case2 a i => simp [mergeCore]
  | case3 a rest i ih => simp [mergeCore, ih]; omega
  | case4 a b rest i h ih => simp [mergeCore, h, ih]

/-- The merge scan emits at most as many cells as it consumes. -/
theorem mergeCore_length_le (l : List Nat) (i : Nat) :
    (mergeCore l i).1.length ≤ l.length := by
  induction l, i using mergeCore.induct with
  | case1 i => simp [mergeCore]
  | case2 a i => simp [mergeCore]
  | case3 a rest i ih => simp [mergeCore]; omega
  | case4 a b rest i h ih =>
    have h2 := ih
    simp at h2
    simp [mergeCore, h]
    omega

/-- Structure of the merge scan: the consumed row splits into consecutive
blocks, each a single value or a pair of equal values, and each output
cell is the sum of its block — so every output cell comes from at most
two input tiles. -/
theorem mergeCore_blocks (l : List Nat) (i : Nat) :
    ∃ blocks : List (List Nat), blocks.flatten = l ∧
      (∀ b ∈ blocks, (∃ v, b = [v]) ∨ (∃ v, b = [v, v])) ∧
      (mergeCore l i).1 = blocks.map List.sum := by
  induction l, i using mergeCore.induct with
  | case1 i => exact ⟨[], by simp, by simp, by simp [mergeCore]⟩
  | case2 a i => exact ⟨[[a]], by simp, by simp, by simp [mergeCore]⟩
  | case3 a rest i ih =>
    obtain ⟨bs, h1, h2, h3⟩ := ih
    refine ⟨[a, a] :: bs, by simp [h1], ?_, ?_⟩
    · intro b hb
      rcases List.mem_cons.mp hb with hb | hb
      · exact Or.inr ⟨a, hb⟩
      · exact h2 b hb
    · simp [mergeCore, h3, mul_two]
  | case4 a b rest i h ih =>
    obtain ⟨bs, h1, h2, h3⟩ := ih
    refine ⟨[a] :: bs, by simp [h1], ?_, ?_⟩
    · intro c hc
      rcases List.mem_cons.mp hc with hc | hc
      · exact Or.inl ⟨a, hc⟩
      · exact h2 c hc
    · simp [mergeCore, h, h3]

/-- Filtering the zeros out of a row of naturals keeps its sum. -/
theorem filter_ne_zero_sum (l : List Nat) :
    (l.filter (fun v => v != 0)).sum = l.sum := by
  induction l with
  | nil => simp
  | cons a t ih =>
    by_cases h : a = 0 <;> simp [List.filter_cons, h, ih]

/-- The function `slideRow` pads its output back to the input length. -/
theorem slideRow_row_length (row : Row) : (slideRow row).row.length = row.length := by
  have h1 : (mergeCore (row.filter (fun v => v != 0)) 0).1.length ≤ row.length :=
    le_trans (mergeCore_length_le _ 0) (List.length_filter_le _ _)
  simp [slideRow]
  omega

/-- The function `slideRow` preserves the sum of the row. -/
theorem slideRow_sum (row : Row) : (slideRow row).row.sum = row.sum := by
  simp [slideRow, mergeCore_sum, filter_ne_zero_sum]

/-- The function `slideRow` reports a score gain equal to the sum of its merged values. -/
theorem slideRow_scoreGain (row : Row) :
    (slideRow row).scoreGain = (slideRow row).merged.sum := by
  simp [slideRow, mergeCore_scoreGain_eq_sum]

/-! ## The branches of `move` -/

theorem moveCommit_fst (d : String) (p : Nat) (t : Bool) (s1 : Game)
    (pr : RowsOut) : (moveCommit d p t s1 pr).1 = commitFinal d p t s1 pr := rfl

theorem commitBase_history (d : String) (s1 : Game) (pr : RowsOut) :
    (commitBase d s1 pr).history = s1.history := by
  simp only [commitBase]; split_ifs <;> rfl

theorem commitBase_wonBefore (d : String) (s1 : Game) (pr : RowsOut) :
    (commitBase d s1 pr).wonBefore = s1.wonBefore := by
  simp only [commitBase]; split_ifs <;> rfl

theorem commitBase_maxHistory (d : String) (s1 : Game) (pr : RowsOut) :
    (commitBase d s1 pr).maxHistory = s1.maxHistory := by
  simp only [commitBase]; split_ifs <;> rfl

theorem commitBase_size (d : String) (s1 : Game) (pr : RowsOut) :
    (commitBase d s1 pr).size = s1.size := by
  simp only [commitBase]; split_ifs <;> rfl

theorem commitBase_grid (d : String) (s1 : Game) (pr : RowsOut) :
    (commitBase d s1 pr).grid = rotateIter (unrotCount d) pr.grid := by
  simp only [commitBase]; split_ifs <;> rfl

theorem commitBase_score (d : String) (s1 : Game) (pr : RowsOut) :
    (commitBase d s1 pr).score = s1.score + pr.scoreGain := by
  simp only [commitBase]; split_ifs <;> rfl

theorem commitWinChecked_history (d : String) (p : Nat) (t : Bool) (s1 : Game)
    (pr : RowsOut) : (commitWinChecked d p t s1 pr).history = s1.history := by
  simp only [commitWinChecked, commitSpawned]
  split_ifs <;> simp [commitBase_history]

theorem commitWinChecked_wonBefore (d : String) (p : Nat) (t : Bool) (s1 : Game)
    (pr : RowsOut) : (commitWinChecked d p t s1 pr).wonBefore = s1.wonBefore := by
  simp only [commitWinChecked, commitSpawned]
  split_ifs <;> simp [commitBase_wonBefore]

theorem commitWinChecked_maxHistory (d : String) (p : Nat) (t : Bool) (s1 : Game)
    (pr : RowsOut) : (commitWinChecked d p t s1 pr).maxHistory = s1.maxHistory := by
  simp only [commitWinChecked, commitSpawned]
  split_ifs <;> simp [commitBase_maxHistory]

theorem commitWinChecked_size (d : String) (p : Nat) (t : Bool) (s1 : Game)
    (pr : RowsOut) : (commitWinChecked d p t s1 pr).size = s1.size := by
  simp only [commitWinChecked, commitSpawned]
  split_ifs <;> simp [commitBase_size]

theorem commitFinal_history (d : String) (p : Nat) (t : Bool) (s1 : Game)
    (pr : RowsOut) : (commitFinal d p t s1 pr).history = s1.history := by
  simp only [commitFinal]
  split_ifs <;> simp [commitWinChecked_history]

theorem commitFinal_wonBefore (d : String) (p : Nat) (t : Bool) (s1 : Game)
    (pr : RowsOut) : (commitFinal d p t s1 pr).wonBefore = s1.wonBefore := by
  simp only [commitFinal]
  split_ifs <;> simp [commitWinChecked_wonBefore]

theorem commitFinal_maxHistory (d : String) (p : Nat) (t : Bool) (s1 : Game)
    (pr : RowsOut) : (commitFinal d p t s1 pr).maxHistory = s1.maxHistory := by
  simp only [commitFinal]
  split_ifs <;> simp [commitWinChecked_maxHistory]

theorem commitFinal_size (d : String) (p : Nat) (t : Bool) (s1 : Game)
    (pr : RowsOut) : (commitFinal d p t s1 pr).size = s1.size := by
  simp only [commitFinal]
  split_ifs <;> simp [commitWinChecked_size]

/-- A move that returns a result went through the commit path. -/
theorem move_committed (d : String) (p : Nat) (t : Bool) (s : Game)
    (h : (move d p t s).2.isSome = true) :
    ¬s.gameState = GState.lost ∧
    ¬(s.gameState = GState.won ∧ s.wonBefore = false) ∧
    ¬(processRows s.size (rotateIter (rotCount d) s.grid)).moved = false ∧
    move d p t s = moveCommit d p t (pushHistory s)
      (processRows s.size (rotateIter (rotCount d) s.grid)) := by
  rw [move_def] at h ⊢
  split_ifs at h ⊢ with h1 h2 h3
  · simp at h
  · simp at h
  · simp at h
  · exact ⟨h1, h2, h3, rfl⟩

theorem commitWinChecked_grid (d : String) (p : Nat) (t : Bool) (s1 : Game)
    (pr : RowsOut) :
    (commitWinChecked d p t s1 pr).grid = (commitSpawned d p t s1 pr).1.grid := by
  simp only [commitWinChecked]
  split_ifs <;> rfl

theorem commitFinal_grid (d : String) (p : Nat) (t : Bool) (s1 : Game)
    (pr : RowsOut) :
    (commitFinal d p t s1 pr).grid = (commitWinChecked d p t s1 pr).grid := by
  simp only [commitFinal]
  split_ifs <;> rfl

theorem moveCommit_snd_eq (d : String) (p : Nat) (t : Bool) (s1 : Game)
    (pr : RowsOut) :
    (moveCommit d p t s1 pr).2 = some
      { moved := true,
        movements := pr.movements.map (fun m =>
          { src := unrotateCoord s1.size m.fromR m.fromC (unrotCount d),
            dst := unrotateCoord s1.size m.toR m.toC (unrotCount d),
            value := m.value, merged := m.merged,
            mergedValue := m.mergedValue }),
        mergedTiles := pr.allMerged,
        newTile := (commitSpawned d p t s1 pr).2,
        scoreGain := pr.scoreGain,
        gameState := (commitFinal d p t s1 pr).gameState } := rfl

/-- The function `move` never writes `wonBefore` (only `continueGame` and `undo` do). -/
theorem move_fst_wonBefore (d : String) (p : Nat) (t : Bool) (s : Game) :
    (move d p t s).1.wonBefore = s.wonBefore := by
  rw [move_def]
  split_ifs <;>
    simp [moveCommit_fst, commitFinal_wonBefore]

theorem move_fst_maxHistory (d : String) (p : Nat) (t : Bool) (s : Game) :
    (move d p t s).1.maxHistory = s.maxHistory := by
  rw [move_def]
  split_ifs <;>
    simp [moveCommit_fst, commitFinal_maxHistory]

theorem move_fst_size (d : String) (p : Nat) (t : Bool) (s : Game) :
    (move d p t s).1.size = s.size := by
  rw [move_def]
  split_ifs <;>
    simp [moveCommit_fst, commitFinal_size]

theorem dropLast_drop_one_concat {α : Type} (l : List α) (x : α) :
    ((l ++ [x]).drop 1).dropLast = l.drop 1 := by
  cases l <;> simp

/-! ## The claims -/

/-- C2 (counterexample): `wonBefore` is not monotone across move, undo
and continueGame sequences.  From a board one merge from 2048: the move
wins, `continueGame` sets `wonBefore := true`, and `undo` resets it to
`false` by restoring the pre-win snapshot. -/
theorem wonBefore_reset_by_undo_cex :
    (continueGame (move "left" 0 true exWin).1).wonBefore = true ∧
    (undo (continueGame (move "left" 0 true exWin).1)).1.wonBefore = false := by
  exact ⟨by decide, by decide⟩

/-- C2 (amended): `wonBefore` is monotone under `move` and
`continueGame` — `move` leaves it unchanged and `continueGame` can only
set it — but `undo` may reset it to `false` by restoring a pre-win
snapshot. -/
theorem wonBefore_monotone_move_continue (s : Game) (d : String) (p : Nat)
    (t : Bool) :
    (move d p t s).1.wonBefore = s.wonBefore ∧
    (s.wonBefore = true → (continueGame s).wonBefore = true) := by
  refine ⟨move_fst_wonBefore d p t s, ?_⟩
  intro h
  unfold continueGame
  split_ifs <;> simp [h]

/-- Witness for C2's amended claim at a state with `wonBefore = true`. -/
theorem wonBefore_monotone_move_continue_witness :
    (move "left" 0 true { Game.mk0 4 with wonBefore := true }).1.wonBefore = true ∧
    (continueGame { Game.mk0 4 with wonBefore := true }).wonBefore = true := by
  have h := wonBefore_monotone_move_continue
    { Game.mk0 4 with wonBefore := true } "left" 0 true
  exact ⟨h.1.trans rfl, h.2 rfl⟩

/-- C5: in `slideRow` a freshly merged cell never merges again: the
compacted input splits into consecutive blocks that are single values or
pairs of equal values, each output cell being the sum of its block (so
produced from at most two input tiles); and `[2,2,2,2]` slides to
`[4,4,0,0]`. -/
theorem slideRow_no_double_merge :
    (∀ row : Row, ∃ blocks : List (List Nat),
      blocks.flatten = row.filter (fun v => v != 0) ∧
      (∀ b ∈ blocks, (∃ v, b = [v]) ∨ (∃ v, b = [v, v])) ∧
      (slideRow row).row = blocks.map List.sum ++
        List.replicate (row.length - (blocks.map List.sum).length) 0) ∧
    (slideRow [2, 2, 2, 2]).row = [4, 4, 0, 0] := by
  constructor
  · intro row
    obtain ⟨bs, h1, h2, h3⟩ := mergeCore_blocks (row.filter (fun v => v != 0)) 0
    exact ⟨bs, h1, h2, by simp [slideRow, h3]⟩
  · decide

/-- Witness for C5: the concrete `[2,2,2,2]` slide. -/
theorem slideRow_no_double_merge_witness :
    (slideRow [2, 2, 2, 2]).row = [4, 4, 0, 0] :=
  slideRow_no_double_merge.2

/-- C7: `undo` returns `false` and changes nothing on an empty history;
otherwise it removes exactly the most recent snapshot (history length
decreases by one) and restores grid, score, gameState and wonBefore from
it, leaving `moveId` unchanged and spawning no tile (the snapshot grid is
installed verbatim). -/
theorem undo_restores_snapshot (s : Game) :
    (s.history = [] → undo s = (s, false)) ∧
    (∀ prev, s.history.getLast? = some prev →
      undo s = ({ s with grid := prev.grid, score := prev.score,
                         gameState := prev.gameState, wonBefore := prev.wonBefore,
                         history := s.history.dropLast }, true) ∧
      (undo s).1.history.length + 1 = s.history.length ∧
      (undo s).1.moveId = s.moveId) := by
  constructor
  · intro h
    simp [undo, h]
  · intro prev h
    have hne : s.history ≠ [] := by
      intro he
      rw [he] at h
      simp at h
    have hpos : 0 < s.history.length := List.length_pos.mpr hne
    refine ⟨by simp [undo, h], ?_, by simp [undo, h]⟩
    simp [undo, h, List.length_dropLast]
    omega

/-- Witness for C7 at an empty and at a one-snapshot history. -/
theorem undo_restores_snapshot_witness :
    undo (Game.mk0 4) = (Game.mk0 4, false) ∧
    (undo exUndo).1.history.length + 1 = exUndo.history.length := by
  constructor
  · exact (undo_restores_snapshot (Game.mk0 4)).1 rfl
  · exact ((undo_restores_snapshot exUndo).2 exUndoSnap rfl).2.1

/-- C9: `deserialize` returns `false` and leaves every field unmodified
exactly when the input lacks a grid; with a grid present it returns
`true`, installs the grid, and defaults every absent field (score 0,
bestScore 0, empty history, state playing, wonBefore false, moveId 0). -/
theorem deserialize_spec (s : Game) (data : Option DeserData) :
    ((data = none ∨ ∃ d, data = some d ∧ d.grid = none) →
      deserialize data s = (s, false)) ∧
    (∀ d g, data = some d → d.grid = some g →
      deserialize data s =
        ({ s with grid := g, score := d.score.getD 0,
                  bestScore := d.bestScore.getD 0, history := d.history.getD [],
                  gameState := d.gameState.getD GState.playing,
                  wonBefore := d.wonBefore.getD false,
                  moveId := d.moveId.getD 0 }, true)) := by
  constructor
  · rintro (h | ⟨d, hd, hg⟩)
    · simp [deserialize, h]
    · simp [deserialize, hd, hg]
  · intro d g hd hg
    simp [deserialize, hd, hg]

/-- Witness for C9: absent data, gridless data, and grid-only data. -/
theorem deserialize_spec_witness :
    deserialize none (Game.mk0 4) = (Game.mk0 4, false) ∧
    deserialize (some exDeserNoGrid) (Game.mk0 4) = (Game.mk0 4, false) ∧
    deserialize (some exDeserGridOnly) (Game.mk0 4) =
      ({ Game.mk0 4 with grid := [[2,0],[0,2]], score := 0, bestScore := 0,
                         history := [], gameState := GState.playing,
                         wonBefore := false, moveId := 0 }, true) := by
  refine ⟨?_, ?_, ?_⟩
  · exact (deserialize_spec (Game.mk0 4) none).1 (Or.inl rfl)
  · exact (deserialize_spec (Game.mk0 4) (some exDeserNoGrid)).1
      (Or.inr ⟨exDeserNoGrid, rfl, rfl⟩)
  · exact (deserialize_spec (Game.mk0 4) (some exDeserGridOnly)).2
      exDeserGridOnly [[2,0],[0,2]] rfl rfl

/-- C10: a direction outside the lookup table is not rejected: both
rotation loops run zero times, exactly as for `"left"`, so the call is
identical to `move("left")` in state change and result. -/
theorem move_unknown_direction_eq_left (d : String) (p : Nat) (t : Bool)
    (s : Game) (h : rotationsTable d = none) :
    move d p t s = move "left" p t s := by
  have h1 : rotCount d = rotCount "left" := by
    unfold rotCount
    rw [h]
    rfl
  have h2 : unrotCount d = unrotCount "left" := by
    unfold unrotCount
    rw [h]
    rfl
  unfold move moveCommit commitFinal commitWinChecked commitSpawned commitBase
  rw [h1, h2]

/-- Witness for C10 at the direction string `"x"`. -/
theorem move_unknown_direction_eq_left_witness :
    rotationsTable "x" = none ∧
    move "x" 0 true exWin = move "left" 0 true exWin := by
  exact ⟨rfl, move_unknown_direction_eq_left "x" 0 true exWin rfl⟩

/-- C1 (counterexample): a no-op move does not leave the history intact
when the history is full.  On a board whose left slide changes nothing
and a 20-entry history, `move` returns no result and preserves grid,
score, state and wonBefore, but the history shrinks from 20 to 19
entries: the push evicts the oldest snapshot and the revert pops the
newest. -/
theorem noop_full_history_cex :
    (move "left" 0 true exNoopFull).2 = none ∧
    exNoopFull.history.length = 20 ∧
    (move "left" 0 true exNoopFull).1.history.length = 19 ∧
    (move "left" 0 true exNoopFull).1.grid = exNoopFull.grid := by
  refine ⟨by decide, by decide, by decide, by decide⟩

/-- C1 (amended): a rejected `move` (state lost, or won before
`continueGame`) returns an absent result and leaves the whole state
untouched; a non-rejected move whose slide changes no row returns an
absent result and leaves grid, score, gameState, wonBefore, bestScore
and moveId untouched, and leaves the history untouched exactly when
`history.length < maxHistory` (= 20) — at capacity the oldest history
entry is dropped. -/
theorem move_rejected_or_noop (s : Game) (d : String) (p : Nat) (t : Bool) :
    ((s.gameState = GState.lost ∨ (s.gameState = GState.won ∧ s.wonBefore = false)) →
      move d p t s = (s, none)) ∧
    (¬(s.gameState = GState.lost ∨ (s.gameState = GState.won ∧ s.wonBefore = false)) →
      (processRows s.size (rotateIter (rotCount d) s.grid)).moved = false →
      move d p t s =
        ({ s with history := if s.maxHistory < s.history.length + 1
                             then s.history.drop 1 else s.history }, none)) := by
  constructor
  · rintro (h | ⟨h1, h2⟩)
    · rw [move_def]
      simp [h]
    · rw [move_def]
      simp [h1, h2]
  · intro hrej hnm
    have h1 : ¬s.gameState = GState.lost := fun hh => hrej (Or.inl hh)
    have h2 : ¬(s.gameState = GState.won ∧ s.wonBefore = false) :=
      fun hh => hrej (Or.inr hh)
    rw [move_def]
    simp only [h1, h2, hnm, if_true, if_false, if_neg, ite_false, ite_true,
      if_pos, not_false_eq_true]
    have hh : (pushHistory s).history.dropLast =
        if s.maxHistory < s.history.length + 1
        then s.history.drop 1 else s.history := by
      rw [pushHistory_history]
      split_ifs with hc
      · exact dropLast_drop_one_concat s.history (snap s)
      · exact List.dropLast_concat
    rw [hh]

/-- Witness for C1's amended claim: a rejected move on a lost game, and
a no-op move at sub-capacity history leaving history untouched. -/
theorem move_rejected_or_noop_witness :
    move "left" 0 true exLost = (exLost, none) ∧
    move "left" 0 true { exNoopFull with history := [] } =
      ({ exNoopFull with history := [] }, none) := by
  constructor
  · exact (move_rejected_or_noop exLost "left" 0 true).1 (Or.inl rfl)
  · have h := (move_rejected_or_noop { exNoopFull with history := [] }
      "left" 0 true).2 (by decide) (by decide)
    simpa using h

/-- C4: the lose check runs unconditionally after the win check on every
committed move: when the post-spawn grid admits no move (`canMove`
false: no empty cell and no equal adjacent pair), the resulting state is
`lost` — even when the same move reached the 2048 threshold. -/
theorem lose_check_unconditional (d : String) (p : Nat) (t : Bool) (s : Game)
    (h : (move d p t s).2.isSome = true)
    (hcm : canMove (move d p t s).1 = false) :
    (move d p t s).1.gameState = GState.lost := by
  obtain ⟨-, -, -, heq⟩ := move_committed d p t s h
  rw [heq] at hcm ⊢
  rw [moveCommit_fst] at hcm ⊢
  unfold commitFinal at hcm ⊢
  by_cases h5 : canMove (commitWinChecked d p t (pushHistory s)
      (processRows s.size (rotateIter (rotCount d) s.grid))) = false
  · simp [h5]
  · simp [h5] at hcm

/-- Witness for C4: a move that merges to 2048 and fills the board dead
ends in `lost`, not `won`. -/
theorem lose_check_unconditional_witness :
    (move "left" 0 false exDead).2.isSome = true ∧
    canMove (move "left" 0 false exDead).1 = false ∧
    (move "left" 0 false exDead).2.map MoveResult.mergedTiles = some [2048] ∧
    (move "left" 0 false exDead).1.gameState = GState.lost := by
  refine ⟨by decide, by decide, by decide,
    lose_check_unconditional "left" 0 false exDead (by decide) (by decide)⟩

/-- C3 (counterexample): a merge producing a value ≥ 2048 does not set
the state to `won` unless the value is exactly 2048: merging two 4096
tiles (with `wonBefore` false and moves still available) leaves the
state `playing`. -/
theorem win_threshold_ge_cex :
    (move "left" 0 true exBigMerge).2.map MoveResult.mergedTiles = some [8192] ∧
    exBigMerge.wonBefore = false ∧
    canMove (move "left" 0 true exBigMerge).1 = true ∧
    (move "left" 0 true exBigMerge).1.gameState = GState.playing := by
  refine ⟨by decide, by decide, by decide, by decide⟩

/-- C3 (amended): after a committed move, if some merge produced exactly
2048 or some cell of the resulting grid holds exactly 2048, `wonBefore`
is false, and the resulting board still admits a move (otherwise the
unconditional lose check overrides the win), then the state is `won`.
Values strictly above 2048 do not trigger the check. -/
theorem win_exact_2048_sets_won (d : String) (p : Nat) (t : Bool) (s : Game)
    (res : MoveResult) (h : (move d p t s).2 = some res)
    (hwin : res.mergedTiles.contains 2048 = true ∨
      (move d p t s).1.grid.any (fun row => row.contains 2048) = true)
    (hwb : s.wonBefore = false)
    (hcm : canMove (move d p t s).1 = true) :
    (move d p t s).1.gameState = GState.won := by
  have hs : (move d p t s).2.isSome = true := by
    rw [h]; rfl
  obtain ⟨-, -, -, heq⟩ := move_committed d p t s hs
  rw [heq] at h hwin hcm ⊢
  rw [moveCommit_fst] at hwin hcm ⊢
  rw [moveCommit_snd_eq] at h
  have hres := (Option.some.inj h).symm
  subst hres
  unfold commitFinal at hwin hcm ⊢
  by_cases h5 : canMove (commitWinChecked d p t (pushHistory s)
      (processRows s.size (rotateIter (rotCount d) s.grid))) = false
  · rw [if_pos h5] at hcm
    rw [show canMove { commitWinChecked d p t (pushHistory s)
        (processRows s.size (rotateIter (rotCount d) s.grid)) with
        gameState := GState.lost } = canMove (commitWinChecked d p t (pushHistory s)
        (processRows s.size (rotateIter (rotCount d) s.grid))) from rfl] at hcm
    rw [h5] at hcm
    simp at hcm
  · rw [if_neg h5] at hwin hcm ⊢
    unfold commitWinChecked at hwin hcm ⊢
    have hwb4 : (commitSpawned d p t (pushHistory s)
        (processRows s.size (rotateIter (rotCount d) s.grid))).1.wonBefore = false := by
      rw [commitSpawned, addRandomTile_fst_wonBefore, commitBase_wonBefore,
        pushHistory_wonBefore, hwb]
    have hwon : ((processRows s.size (rotateIter (rotCount d) s.grid)).allMerged.contains 2048 ||
        (commitSpawned d p t (pushHistory s)
          (processRows s.size (rotateIter (rotCount d) s.grid))).1.grid.any
            (fun row => row.contains 2048)) = true := by
      rcases hwin with hw | hw
      · have hw' : (processRows s.size
            (rotateIter (rotCount d) s.grid)).allMerged.contains 2048 = true := hw
        rw [hw']
        rfl
      · split_ifs at hw with hcond
        · have hw' : (commitSpawned d p t (pushHistory s)
              (processRows s.size (rotateIter (rotCount d) s.grid))).1.grid.any
                (fun row => row.contains 2048) = true := hw
          rw [hw', Bool.or_true]
        · rw [hw, Bool.or_true]
    rw [if_pos ⟨hwon, hwb4⟩]

/-- Witness for C3's amended claim: the 1024+1024 merge wins. -/
theorem win_exact_2048_sets_won_witness :
    (move "left" 0 true exWin).2 = some exWinRes ∧
    (move "left" 0 true exWin).1.gameState = GState.won := by
  have h : (move "left" 0 true exWin).2 = some exWinRes := by decide
  exact ⟨h, win_exact_2048_sets_won "left" 0 true exWin exWinRes h
    (Or.inl (by decide)) (by decide) (by decide)⟩

/-! ## Sum conservation machinery for the merge-conservation claim -/

theorem list_sum_map_range {M : Type} [AddCommMonoid M] (f : Nat → M) :
    ∀ n : Nat, ((List.range n).map f).sum = ∑ i ∈ Finset.range n, f i := by
  intro n
  induction n with
  | zero => simp
  | succ n ih => simp [List.range_succ, Finset.sum_range_succ, ih]

theorem sum_getD_range (l : List Nat) :
    ∑ i ∈ Finset.range l.length, l.getD i 0 = l.sum := by
  induction l with
  | nil => simp
  | cons a t ih =>
    rw [List.length_cons, Finset.sum_range_succ']
    simp only [List.getD_cons_succ, List.getD_cons_zero]
    rw [ih, List.sum_cons, Nat.add_comm]

theorem map_getD_range {α : Type} (l : List α) (d : α) :
    (List.range l.length).map (fun i => l.getD i d) = l := by
  induction l with
  | nil => simp
  | cons a t ih =>
    rw [List.length_cons, List.range_succ_eq_map, List.map_cons, List.map_map]
    simp only [Function.comp_def, List.getD_cons_succ, List.getD_cons_zero]
    rw [ih]

theorem gridSum_eq_sum_range (g : Grid) :
    gridSum g = ∑ r ∈ Finset.range g.length, (g.getD r []).sum := by
  conv_lhs => rw [gridSum, show g = (List.range g.length).map (fun i => g.getD i [])
    from (map_getD_range g []).symm]
  rw [List.map_map, list_sum_map_range]
  simp [Function.comp]

theorem squareGrid_row_length {n : Nat} {g : Grid} (h : SquareGrid n g)
    {r : Nat} (hr : r < n) : (g.getD r []).length = n := by
  obtain ⟨hl, hrow⟩ := h
  have hrl : r < g.length := by omega
  have : g.getD r [] ∈ g := by
    rw [List.getD_eq_getElem?_getD, List.getElem?_eq_getElem hrl]
    exact List.getElem_mem hrl
  exact hrow _ this

theorem rotateGrid_square {n : Nat} {g : Grid} (h : SquareGrid n g) :
    SquareGrid n (rotateGrid g) := by
  obtain ⟨hl, _⟩ := h
  constructor
  · simp [rotateGrid, hl]
  · intro row hrow
    simp only [rotateGrid, List.mem_map] at hrow
    obtain ⟨i, -, hi⟩ := hrow
    simp [← hi, hl]

theorem rotateGrid_gridSum {n : Nat} {g : Grid} (h : SquareGrid n g) :
    gridSum (rotateGrid g) = gridSum g := by
  have hl := h.1
  rw [gridSum, rotateGrid]
  simp only [List.map_map, hl]
  rw [list_sum_map_range]
  have step1 : ∀ i, ((List.range n).map
      (fun j => (g.getD (n - 1 - j) []).getD i 0)).sum =
      ∑ j ∈ Finset.range n, (g.getD (n - 1 - j) []).getD i 0 := by
    intro i
    exact list_sum_map_range _ n
  have step2 : ∑ i ∈ Finset.range n, ∑ j ∈ Finset.range n,
      (g.getD (n - 1 - j) []).getD i 0 =
      ∑ j ∈ Finset.range n, ∑ i ∈ Finset.range n,
      (g.getD (n - 1 - j) []).getD i 0 := Finset.sum_comm
  have step3 : ∀ j, j < n → ∑ i ∈ Finset.range n,
      (g.getD (n - 1 - j) []).getD i 0 = (g.getD (n - 1 - j) []).sum := by
    intro j hj
    have hlen : (g.getD (n - 1 - j) []).length = n :=
      squareGrid_row_length h (by omega)
    have h2 := sum_getD_range (g.getD (n - 1 - j) [])
    rw [hlen] at h2
    exact h2
  calc ∑ i ∈ Finset.range n, (List.map (fun j =>
        (g.getD (n - 1 - j) []).getD i 0) (List.range n)).sum
      = ∑ i ∈ Finset.range n, ∑ j ∈ Finset.range n,
          (g.getD (n - 1 - j) []).getD i 0 := by
        refine Finset.sum_congr rfl fun i _ => ?_
        exact step1 i
    _ = ∑ j ∈ Finset.range n, ∑ i ∈ Finset.range n,
          (g.getD (n - 1 - j) []).getD i 0 := step2
    _ = ∑ j ∈ Finset.range n, (g.getD (n - 1 - j) []).sum := by
        refine Finset.sum_congr rfl fun j hj => ?_
        exact step3 j (Finset.mem_range.mp hj)
    _ = ∑ j ∈ Finset.range n, (g.getD j []).sum :=
        Finset.sum_range_reflect (fun j => (g.getD j []).sum) n
    _ = gridSum g := by
        rw [gridSum_eq_sum_range, hl]

theorem rotateIter_square {n : Nat} : ∀ (k : Nat) {g : Grid},
    SquareGrid n g → SquareGrid n (rotateIter k g)
  | 0, _, h => h
  | k + 1, _, h => rotateIter_square k (rotateGrid_square h)

theorem rotateIter_gridSum {n : Nat} : ∀ (k : Nat) {g : Grid},
    SquareGrid n g → gridSum (rotateIter k g) = gridSum g
  | 0, _, _ => rfl
  | k + 1, g, h => by
    rw [rotateIter, rotateIter_gridSum k (rotateGrid_square h), rotateGrid_gridSum h]

theorem processRows_grid (n : Nat) (wg : Grid) :
    (processRows n wg).grid =
      (List.range n).map (fun r => (slideRow (wg.getD r [])).row) := by
  simp only [processRows, List.map_map]
  rfl

theorem processRows_grid_square {n : Nat} {wg : Grid} (h : SquareGrid n wg) :
    SquareGrid n (processRows n wg).grid := by
  rw [processRows_grid]
  constructor
  · simp
  · intro row hrow
    simp only [List.mem_map, List.mem_range] at hrow
    obtain ⟨r, hr, hrow⟩ := hrow
    rw [← hrow, slideRow_row_length]
    exact squareGrid_row_length h hr

theorem processRows_gridSum {n : Nat} {wg : Grid} (h : SquareGrid n wg) :
    gridSum (processRows n wg).grid = gridSum wg := by
  rw [processRows_grid, gridSum, List.map_map, list_sum_map_range]
  calc ∑ r ∈ Finset.range n, (List.sum ∘ fun r => (slideRow (wg.getD r [])).row) r
      = ∑ r ∈ Finset.range n, (wg.getD r []).sum := by
        refine Finset.sum_congr rfl fun r _ => ?_
        simp [slideRow_sum]
    _ = gridSum wg := by rw [gridSum_eq_sum_range, h.1]

theorem processRows_scoreGain (n : Nat) (wg : Grid) :
    (processRows n wg).scoreGain = (processRows n wg).allMerged.sum := by
  simp only [processRows, List.sum_flatten, List.map_map]
  refine congrArg List.sum (List.map_congr_left fun r _ => ?_)
  simp only [Function.comp_def]
  exact slideRow_scoreGain _

theorem mem_emptyCells {n : Nat} {g : Grid} {r c : Nat}
    (h : (r, c) ∈ emptyCells n g) :
    cellOf g r c = some 0 ∧ r < n ∧ c < n := by
  simp only [emptyCells, List.mem_flatMap, List.mem_filterMap, List.mem_range] at h
  obtain ⟨r', hr', c', hc', hf⟩ := h
  by_cases hcell : cellOf g r' c' = some 0
  · rw [if_pos hcell] at hf
    have h2 := Option.some.inj hf
    obtain ⟨rfl, rfl⟩ : r' = r ∧ c' = c :=
      ⟨congrArg Prod.fst h2, congrArg Prod.snd h2⟩
    exact ⟨hcell, hr', hc'⟩
  · rw [if_neg hcell] at hf
    exact absurd hf (by simp)

theorem cellOf_bounds {g : Grid} {r c v : Nat} (h : cellOf g r c = some v) :
    r < g.length ∧ c < (g.getD r []).length ∧ (g.getD r []).getD c 0 = v := by
  unfold cellOf at h
  cases hr : g.get? r with
  | none => rw [hr] at h; simp at h
  | some row =>
    rw [hr] at h
    simp only [Option.some_bind] at h
    obtain ⟨hc, hget⟩ := List.get?_eq_some.mp h
    have hrl := (List.get?_eq_some.mp hr).1
    have hrow : g.getD r [] = row := by
      rw [List.getD_eq_getElem?_getD, ← List.get?_eq_getElem?, hr]
      rfl
    refine ⟨hrl, by rw [hrow]; exact hc, ?_⟩
    rw [hrow, List.getD_eq_getElem?_getD, ← List.get?_eq_getElem?, h]
    rfl

theorem row_sum_set : ∀ (row : Row) (c : Nat), c < row.length →
    row.getD c 0 = 0 → ∀ v, (row.set c v).sum = row.sum + v
  | [], c, hc, _, _ => by simp at hc
  | a :: t, 0, _, h0, v => by
    simp only [List.getD_cons_zero] at h0
    simp [h0]
    omega
  | a :: t, c + 1, hc, h0, v => by
    simp only [List.getD_cons_succ] at h0
    have := row_sum_set t c (by simpa using hc) h0 v
    simp [this]
    omega

theorem gridSum_set_row : ∀ (g : Grid) (r : Nat), r < g.length →
    ∀ (row' : Row) (v : Nat), row'.sum = (g.getD r []).sum + v →
    gridSum (g.set r row') = gridSum g + v
  | [], r, hr, _, _, _ => by simp at hr
  | hd :: tl, 0, _, row', v, hsum => by
    simp only [List.getD_cons_zero] at hsum
    simp [gridSum, hsum]
    omega
  | hd :: tl, r + 1, hr, row', v, hsum => by
    simp only [List.getD_cons_succ] at hsum
    have := gridSum_set_row tl r (by simpa using hr) row' v hsum
    simp only [List.set_cons_succ]
    simp only [gridSum, List.map_cons, List.sum_cons] at this ⊢
    omega

/-- The tile spawn adds exactly the spawned value to the grid total (and
nothing when the board is full). -/
theorem addRandomTile_gridSum (p : Nat) (t : Bool) (s : Game) :
    gridSum (addRandomTile p t s).1.grid = gridSum s.grid +
      (match (addRandomTile p t s).2 with
       | some nt => nt.value
       | none => 0) := by
  unfold addRandomTile
  by_cases hlen : (emptyCells s.size s.grid).length = 0
  · simp [hlen]
  · simp only [hlen, if_false, ite_false]
    have hlt : p % (emptyCells s.size s.grid).length <
        (emptyCells s.size s.grid).length :=
      Nat.mod_lt _ (Nat.pos_of_ne_zero hlen)
    have hmem : (emptyCells s.size s.grid).getD
        (p % (emptyCells s.size s.grid).length) (0, 0) ∈ emptyCells s.size s.grid := by
      rw [List.getD_eq_getElem?_getD, List.getElem?_eq_getElem hlt]
      exact List.getElem_mem hlt
    obtain ⟨hcell, -, -⟩ := mem_emptyCells hmem
    obtain ⟨hr, hc, h0⟩ := cellOf_bounds hcell
    rw [setCell]
    exact gridSum_set_row s.grid _ hr _ _ (row_sum_set _ _ hc h0 _)

/-- C6: merge conservation.  On every committed move from a well-formed
(`size`×`size`) grid, the returned `scoreGain` equals exactly the sum of
the returned `mergedTiles`, and the tile total after the slide/merge
step equals the pre-move total — observed on the post-spawn grid, whose
total is the pre-move total plus exactly the spawned tile's value. -/
theorem merge_conservation (d : String) (p : Nat) (t : Bool) (s : Game)
    (res : MoveResult) (hsq : SquareGrid s.size s.grid)
    (h : (move d p t s).2 = some res) :
    res.scoreGain = res.mergedTiles.sum ∧
    gridSum (move d p t s).1.grid = gridSum s.grid +
      (match res.newTile with
       | some nt => nt.value
       | none => 0) := by
  have hs : (move d p t s).2.isSome = true := by
    rw [h]; rfl
  obtain ⟨-, -, -, heq⟩ := move_committed d p t s hs
  rw [heq] at h ⊢
  rw [moveCommit_snd_eq] at h
  have hres := (Option.some.inj h).symm
  subst hres
  constructor
  · exact processRows_scoreGain _ _
  · rw [moveCommit_fst, commitFinal_grid, commitWinChecked_grid, commitSpawned]
    rw [addRandomTile_gridSum]
    have hbase : gridSum (commitBase d (pushHistory s)
        (processRows s.size (rotateIter (rotCount d) s.grid))).grid =
        gridSum s.grid := by
      rw [commitBase_grid]
      have hsq1 : SquareGrid s.size (rotateIter (rotCount d) s.grid) :=
        rotateIter_square _ hsq
      have hsq2 : SquareGrid s.size
          (processRows s.size (rotateIter (rotCount d) s.grid)).grid :=
        processRows_grid_square hsq1
      rw [rotateIter_gridSum _ hsq2, processRows_gridSum hsq1,
        rotateIter_gridSum _ hsq]
    rw [hbase]

/-- Witness for C6 on the concrete 1024+1024 board. -/
theorem merge_conservation_witness :
    exWinRes.scoreGain = exWinRes.mergedTiles.sum ∧
    gridSum (move "left" 0 true exWin).1.grid = gridSum exWin.grid + 2 := by
  have h : (move "left" 0 true exWin).2 = some exWinRes := by decide
  have hm := merge_conservation "left" 0 true exWin exWinRes ⟨by decide, by decide⟩ h
  exact ⟨hm.1, hm.2⟩

/-! ## History-retention machinery -/

theorem lastN_of_le {l : List Snapshot} {k : Nat} (h : l.length ≤ k) :
    lastN k l = l := by
  unfold lastN
  rw [Nat.sub_eq_zero_of_le h, List.drop_zero]

theorem lastN_length_le (k : Nat) (l : List Snapshot) : (lastN k l).length ≤ k := by
  unfold lastN
  rw [List.length_drop]
  omega

theorem lastN_append (k : Nat) (u b : List Snapshot) :
    lastN k (u ++ b) =
      if k ≤ b.length then lastN k b else lastN (k - b.length) u ++ b := by
  unfold lastN
  rw [List.length_append]
  split_ifs with hb
  · have harith : u.length + b.length - k = u.length + (b.length - k) := by omega
    rw [harith, List.drop_append]
  · have hle : u.length + b.length - k ≤ u.length := by omega
    rw [List.drop_append_of_le_length hle]
    have harith : u.length + b.length - k = u.length - (k - b.length) := by omega
    rw [harith]

theorem lastN_lastN {j k : Nat} (hjk : j ≤ k) (a : List Snapshot) :
    lastN j (lastN k a) = lastN j a := by
  unfold lastN
  rw [List.length_drop, List.drop_drop]
  congr 1
  omega

theorem lastN_lastN_append (k : Nat) (a b : List Snapshot) :
    lastN k (lastN k a ++ b) = lastN k (a ++ b) := by
  rw [lastN_append, lastN_append]
  split_ifs with hb
  · rfl
  · rw [lastN_lastN (by omega)]

theorem preSnaps_length : ∀ (inputs : List (String × Nat × Bool)) (s : Game),
    (preSnaps inputs s).length = inputs.length
  | [], _ => rfl
  | _ :: is, s => by
    simp [preSnaps, preSnaps_length is]

/-- A committed move's history is the pre-move snapshot appended, with
the oldest entry evicted at capacity. -/
theorem move_committed_history (d : String) (p : Nat) (t : Bool) (s : Game)
    (h : (move d p t s).2.isSome = true) :
    (move d p t s).1.history =
      if s.maxHistory < s.history.length + 1
      then (s.history ++ [snap s]).drop 1
      else s.history ++ [snap s] := by
  obtain ⟨-, -, -, heq⟩ := move_committed d p t s h
  rw [heq, moveCommit_fst, commitFinal_history, pushHistory_history]

theorem committed_history_lastN (d : String) (p : Nat) (t : Bool) (s : Game)
    (hmax : s.maxHistory = 20) (hlen : s.history.length ≤ 20)
    (h : (move d p t s).2.isSome = true) :
    (move d p t s).1.history = lastN 20 (s.history ++ [snap s]) := by
  rw [move_committed_history d p t s h, hmax]
  split_ifs with hc
  · unfold lastN
    have harith : (s.history ++ [snap s]).length - 20 = 1 := by
      rw [List.length_append]
      simp
      omega
    rw [harith]
  · exact (lastN_of_le (by rw [List.length_append]; simp; omega)).symm

/-- Invariant of a run of committed moves: the history is the last 20
entries of the initial history followed by all pre-move snapshots. -/
theorem movesSeq_history : ∀ (inputs : List (String × Nat × Bool)) (s : Game),
    s.maxHistory = 20 → s.history.length ≤ 20 → allCommit inputs s = true →
    (movesSeq inputs s).history = lastN 20 (s.history ++ preSnaps inputs s)
  | [], s, _, hlen, _ => by
    simp only [movesSeq, List.foldl_nil, preSnaps, List.append_nil]
    exact (lastN_of_le hlen).symm
  | i :: is, s, hmax, hlen, hc => by
    simp only [allCommit, Bool.and_eq_true] at hc
    obtain ⟨h1, h2⟩ := hc
    have hstep := committed_history_lastN i.1 i.2.1 i.2.2 s hmax hlen h1
    have hmax' : (move i.1 i.2.1 i.2.2 s).1.maxHistory = 20 := by
      rw [move_fst_maxHistory]
      exact hmax
    have hlen' : (move i.1 i.2.1 i.2.2 s).1.history.length ≤ 20 := by
      rw [hstep]
      exact lastN_length_le _ _
    have ih := movesSeq_history is (move i.1 i.2.1 i.2.2 s).1 hmax' hlen' h2
    simp only [movesSeq, List.foldl_cons] at ih ⊢
    rw [ih, hstep, preSnaps, lastN_lastN_append]
    congr 1
    simp

theorem pushHistory_length_le (s : Game) (hmax : s.maxHistory = 20)
    (hlen : s.history.length ≤ 20) : (pushHistory s).history.length ≤ 20 := by
  rw [pushHistory_history, hmax]
  split_ifs with hc
  · rw [List.length_drop, List.length_append]
    simp
    omega
  · rw [List.length_append]
    simp
    omega

theorem move_history_length_le (d : String) (p : Nat) (t : Bool) (s : Game)
    (hmax : s.maxHistory = 20) (hlen : s.history.length ≤ 20) :
    (move d p t s).1.history.length ≤ 20 := by
  rw [move_def]
  split_ifs
  · exact hlen
  · exact hlen
  · have hp := pushHistory_length_le s hmax hlen
    calc ((pushHistory s).history.dropLast).length
        ≤ (pushHistory s).history.length := by
          rw [List.length_dropLast]
          omega
      _ ≤ 20 := hp
  · rw [moveCommit_fst, commitFinal_history]
    exact pushHistory_length_le s hmax hlen

/-- C8 (counterexample): the history stack can exceed 20 entries after
an engine operation: `deserialize` installs the supplied history
verbatim, here 21 entries. -/
theorem history_cap_exceeded_cex :
    (deserialize (some exDeserLongHistory) (Game.mk0 4)).2 = true ∧
    (deserialize (some exDeserLongHistory) (Game.mk0 4)).1.history.length = 21 ∧
    (deserialize (some exDeserLongHistory) (Game.mk0 4)).1.maxHistory = 20 := by
  exact ⟨by decide, by decide, by decide⟩

/-- C8 (amended): with capacity `maxHistory = 20`, the bound
`history.length ≤ 20` is preserved by `move`, `undo`, `continueGame` and
`pushHistory` (`deserialize`, by contrast, installs the given history
verbatim and may exceed it); a push at capacity discards the oldest
entry first; and 25 consecutive committed moves from an empty history
leave exactly the 20 most recent pre-move snapshots, oldest first. -/
theorem history_bound_and_retention (s : Game) (d : String) (p : Nat)
    (t : Bool) (inputs : List (String × Nat × Bool)) :
    (s.maxHistory = 20 → s.history.length ≤ 20 →
      (move d p t s).1.history.length ≤ 20 ∧
      (undo s).1.history.length ≤ 20 ∧
      (continueGame s).history.length ≤ 20 ∧
      (pushHistory s).history.length ≤ 20 ∧
      (s.history.length = 20 →
        (pushHistory s).history = s.history.drop 1 ++ [snap s])) ∧
    (s.maxHistory = 20 → s.history = [] → inputs.length = 25 →
      allCommit inputs s = true →
      (movesSeq inputs s).history = (preSnaps inputs s).drop 5) := by
  constructor
  · intro hmax hlen
    refine ⟨move_history_length_le d p t s hmax hlen, ?_, ?_,
      pushHistory_length_le s hmax hlen, ?_⟩
    · unfold undo
      cases hg : s.history.getLast? <;>
        simp [List.length_dropLast] <;> omega
    · unfold continueGame
      split_ifs <;> simpa using hlen
    · intro h20
      rw [pushHistory_history, hmax, if_pos (by omega)]
      exact List.drop_append_of_le_length (by omega)
  · intro hmax hnil hlen25 hcommit
    have hrun := movesSeq_history inputs s hmax (by rw [hnil]; simp) hcommit
    rw [hnil, List.nil_append] at hrun
    rw [hrun]
    unfold lastN
    rw [preSnaps_length, hlen25]

/-- Witness for C8's amended claim: the bound at a fresh game, and the
25-move retention on a concrete 3×3 run. -/
theorem history_bound_and_retention_witness :
    (undo (Game.mk0 4)).1.history.length ≤ 20 ∧
    (movesSeq exSeq exSeqStart).history = (preSnaps exSeq exSeqStart).drop 5 := by
  have h1 := history_bound_and_retention (Game.mk0 4) "left" 0 true []
  have h2 := history_bound_and_retention exSeqStart "left" 0 true exSeq
  exact ⟨(h1.1 rfl (by decide)).2.1, h2.2 rfl rfl rfl (by decide)⟩

end Game2048
